import Mathlib

/-!
# Verification of the cluster_tools block-task orchestration engine

Shallow embedding of the block-parallel task orchestration code:

* `production/components/threshold_components.py` — the `ThresholdTask`
  luigi task (`_prepare_jobs`, `_submit_job`, `_collect_outputs`, `run`)
  and the per-block compute entry point `threshold_blocks`;
* `cluster_tools/paintera/conversion_workflow.py` — the per-scale task
  chaining loop `ConversionWorkflow._uniques_in_blocks` and
  `ConversionWorkflow.get_config`;
* `cluster_tools/masking/blocks_from_mask_workflow.py` —
  `BlocksFromMaskWorkflow.requires` and `get_config`.

Machine integers are modelled as `Nat`/`Int`; JSON result files as an
inductive `FileContent`; the file system as functions to `Option`.
-/

namespace ClusterTools

/-! ## Job-config partitioner (`ThresholdTask._prepare_jobs`)

Python: `block_jobs = block_list[job_id::n_jobs]` — the extended slice
taking every `n_jobs`-th element of `block_list` starting at index
`job_id`.  `everyNth l s` models the step part of the slice: it keeps
the head and then every `s`-th element. -/

def everyNthAux : Nat → List α → Nat → List α
  | 0, _, _ => []
  | _ + 1, [], _ => []
  | fuel + 1, x :: xs, step => x :: everyNthAux fuel (xs.drop (step - 1)) step

def everyNth (l : List α) (step : Nat) : List α :=
  everyNthAux l.length l step

/-- Python extended slice `l[start::step]` (for `step ≥ 1`). -/
def pySliceStep (l : List α) (start step : Nat) : List α :=
  everyNth (l.drop start) step

/-- `block_list[job_id::n_jobs]` with `block_list = list(range(n_blocks))`
(threshold_components.py lines 58–60). -/
def jobBlocks (n_jobs n_blocks job_id : Nat) : List Nat :=
  pySliceStep (List.range n_blocks) job_id n_jobs

/-- A serialized job config: the shared algorithm config plus the job's
block-id list (threshold_components.py lines 61–62). -/
structure JobConfig (C : Type) where
  config : C
  block_list : List Nat
deriving DecidableEq

/-- `ThresholdTask._prepare_jobs` (lines 57–65): for each
`job_id < n_jobs` it opens `threshold_config_job%i.json` in `'w'` mode
(truncating any previous content) and writes the job config.  The file
system is a map from job-id to artifact; files outside the written range
keep their prior content. -/
def prepareJobs (config : C) (n_jobs n_blocks : Nat)
    (fs : Nat → Option (JobConfig C)) : Nat → Option (JobConfig C) :=
  fun job_id =>
    if job_id < n_jobs then
      some { config := config, block_list := jobBlocks n_jobs n_blocks job_id }
    else fs job_id

/-- `n_jobs = min(n_blocks, self.max_jobs)` (threshold_components.py
line 118). -/
def thresholdNJobs (n_blocks max_jobs : Nat) : Nat :=
  min n_blocks max_jobs

/-! ## Result collection (`ThresholdTask._collect_outputs`)

A per-block result file `threshold_result_block%i.json` either is
missing, fails `json.load`, or parses to a JSON object that may or may
not carry the keys `'t'` and `'n_components'`.  `_collect_outputs`
executes, inside `try`:
```
res = json.load(f)
times.append(res['t'])
n_components.append(res['n_components'])
processed_blocks.append(block_id)
os.remove(res_file)
```
so a missing `'t'` aborts before any append, while a present `'t'` with
a missing `'n_components'` appends to `times` only. -/

/-- Parsed content of one result file: `json.load` failed, or a JSON
object with optional `'t'` and `'n_components'` fields. -/
inductive FileContent where
  | malformed : FileContent
  | json (t : Option Int) (n_components : Option Int) : FileContent
deriving DecidableEq

/-- The mutable lists of `_collect_outputs` plus the set of result files
removed so far (`os.remove`). -/
structure CollectState where
  times : List Int
  n_components : List Int
  processed_blocks : List Nat
  deleted : List Nat
deriving DecidableEq

/-- One iteration of the `for block_id in range(n_blocks)` loop of
`_collect_outputs` (lines 71–81): the appends happen in source order and
any raised exception is swallowed by `except Exception: continue`. -/
def collectStep (files : Nat → Option FileContent)
    (st : CollectState) (block_id : Nat) : CollectState :=
  match files block_id with
  | some (.json (some t) (some n)) =>
      { times := st.times ++ [t],
        n_components := st.n_components ++ [n],
        processed_blocks := st.processed_blocks ++ [block_id],
        deleted := st.deleted ++ [block_id] }
  | some (.json (some t) none) =>
      { st with times := st.times ++ [t] }
  | _ => st

/-- `ThresholdTask._collect_outputs` (lines 67–82) over the result files
present when aggregation runs. -/
def collectOutputs (files : Nat → Option FileContent) (n_blocks : Nat) :
    CollectState :=
  (List.range n_blocks).foldl (collectStep files) ⟨[], [], [], []⟩

/-- A block's result file is fully readable: it exists, parses, and has
both `'t'` and `'n_components'`. -/
def isReadable (files : Nat → Option FileContent) (b : Nat) : Bool :=
  match files b with
  | some (.json (some _) (some _)) => true
  | _ => false

/-- A block's result file parses and has `'t'` but lacks
`'n_components'`: reading it appends to `times` only. -/
def isOnlyT (files : Nat → Option FileContent) (b : Nat) : Bool :=
  match files b with
  | some (.json (some _) none) => true
  | _ => false

/-! ## The run outcome (`ThresholdTask.run`, lines 84–160) -/

/-- Content of the partial-results log `threshold_partial.json`
(lines 153–157). -/
structure PartialLog where
  n_components : List Int
  times : List Int
  processed_blocks : List Nat
deriving DecidableEq

/-- Content of the completion marker `threshold.log` (lines 146–151). -/
structure Marker where
  n_components : List Int
  times : List Int
deriving DecidableEq

/-- Terminal outcome of `ThresholdTask.run`. -/
inductive RunOutcome where
  /-- The completion marker was written; no error raised. -/
  | completed (marker : Marker) : RunOutcome
  /-- The partial log was written and the `RuntimeError` carrying
  the processed count, the total count and the log path was raised;
  no completion marker. -/
  | partialFailure (log : PartialLog) (processedCount total : Nat)
      (logPath : String) : RunOutcome
  /-- `assert len(processed_blocks) == len(n_components) == len(times)`
  (line 140) failed: neither marker nor partial log is written. -/
  | assertionError : RunOutcome
  /-- `futures.ProcessPoolExecutor(n_jobs)` raised
  `ValueError: max_workers must be greater than 0` (line 126 with
  `n_jobs = 0`). -/
  | valueError : RunOutcome
deriving DecidableEq

/-- The aggregation phase of `ThresholdTask.run` (lines 139–160): collect
outputs, assert the three list lengths agree, then decide success by
`len(processed_blocks) == n_blocks`, writing the marker on success and
the partial log plus `RuntimeError` otherwise. -/
def aggregateOutcome (files : Nat → Option FileContent) (n_blocks : Nat) :
    RunOutcome :=
  let st := collectOutputs files n_blocks
  if st.processed_blocks.length = st.n_components.length ∧
      st.n_components.length = st.times.length then
    if st.processed_blocks.length = n_blocks then
      .completed ⟨st.n_components, st.times⟩
    else
      .partialFailure ⟨st.n_components, st.times, st.processed_blocks⟩
        st.processed_blocks.length n_blocks "threshold_partial.json"
  else .assertionError

/-- `ThresholdTask.run` from the job-count computation onward
(lines 117–160).  Dispatch itself is external (the jobs are separate
processes); `files` is the set of per-block result files present when
aggregation runs.  In local mode the pool construction
`futures.ProcessPoolExecutor(n_jobs)` raises `ValueError` when
`n_jobs = 0`, before any dispatch or aggregation. -/
def thresholdRun (run_local : Bool) (max_jobs n_blocks : Nat)
    (files : Nat → Option FileContent) : RunOutcome :=
  let n_jobs := thresholdNJobs n_blocks max_jobs
  if run_local ∧ n_jobs = 0 then .valueError
  else aggregateOutcome files n_blocks

/-! ## Job submission (`ThresholdTask._submit_job`, lines 40–54)

Both branches end in `subprocess.call([...], shell=True)`, whose return
value (the shell's exit status — nonzero when the queue rejects the
submission or the scheduler binary cannot be invoked) is discarded;
`subprocess.call` does not raise on a nonzero exit status. -/

/-- Whether `_submit_job` returned normally or let an exception
propagate to the caller. -/
inductive SubmitOutcome where
  | ok : SubmitOutcome
  | raised : SubmitOutcome
deriving DecidableEq

/-- `ThresholdTask._submit_job`: run the command (local mode) or the
`bsub` submission command (cluster mode) through the shell and ignore
the exit status. -/
def submitJob (run_local : Bool) (shellCall : String → Int)
    (command bsub_command : String) : SubmitOutcome :=
  if run_local then
    let _ := shellCall command
    .ok
  else
    let _ := shellCall bsub_command
    .ok

/-! ## Workflow chaining (`conversion_workflow.py`,
`blocks_from_mask_workflow.py`) -/

/-- A luigi task node as far as dependency chaining is concerned. -/
inductive PTask where
  /-- The `dependency` passed into the workflow (the leaf sentinel). -/
  | sentinel : PTask
  /-- The default value of the task class's `dependency` parameter,
  used when a constructor call omits the `dependency` keyword. -/
  | defaultDep : PTask
  /-- A `BlocksFromMask` task for one scale. -/
  | maskTask (scale : Nat) (dep : PTask) : PTask
  /-- A `UniqueBlockLabels` task for one scale. -/
  | uniqueTask (scale : Nat) (dep : PTask) : PTask
deriving DecidableEq

/-- The `dependency` parameter of a constructed task node. -/
def PTask.dependencyOf : PTask → Option PTask
  | .maskTask _ d => some d
  | .uniqueTask _ d => some d
  | _ => none

/-- `ConversionWorkflow._uniques_in_blocks` (lines 229–238):
`dep = dependency`, then `for scale in range(n_scales): dep = task(...,
dependency=dep)` — each scale's task is constructed with its
`dependency` keyword set to the previous `dep`. -/
def uniquesInBlocks (dependency : PTask) (n_scales : Nat) : PTask :=
  (List.range n_scales).foldl (fun dep scale => .uniqueTask scale dep)
    dependency

/-- A Python exception kind relevant to the workflow code. -/
inductive PyErr where
  | attributeError : PyErr
deriving DecidableEq

/-- Attribute lookup on a `BlocksFromMaskWorkflow` instance: the class
declares the luigi parameter `effective_scales` (line 17); any other
attribute name raises `AttributeError`. -/
def bfmGetAttr (effective_scales : List (List Nat)) (name : String) :
    Except PyErr (List (List Nat)) :=
  if name = "effective_scales" then .ok effective_scales
  else .error .attributeError

/-- The loop body of `BlocksFromMaskWorkflow.requires` (lines 23–28):
`dep = task(tmp_folder=..., max_jobs=..., config_dir=..., mask_path=...,
mask_key=..., output_path=..., output_key=output_key)` — the constructor
call does **not** pass `dependency=dep`, so every constructed task keeps
the class default dependency, and `dep` is simply reassigned. -/
def bfmLoop (dependency : PTask) (n_scales : Nat) : PTask :=
  (List.range n_scales).foldl
    (fun _dep scale => PTask.maskTask scale PTask.defaultDep) dependency

/-- `BlocksFromMaskWorkflow.requires` (lines 19–29): it iterates
`enumerate(self.effecive_scales)` — a misspelling of the declared
parameter `effective_scales` — so the attribute lookup raises
`AttributeError` before the loop runs. -/
def blocksFromMaskRequires (dependency : PTask)
    (effective_scales : List (List Nat)) : Except PyErr PTask := do
  let scales ← bfmGetAttr effective_scales "effecive_scales"
  pure (bfmLoop dependency scales.length)

/-! ## Workflow configuration merge (`get_config`)

`configs.update({...})` — Python `dict.update`: entries of the argument
override existing keys of `configs`, silently. -/

/-- Python `dict.update` applied to a sequence of key/value pairs:
later pairs and pairs in `upds` override `base`. -/
def pyUpdate (base : String → Option Int) (upds : List (String × Int)) :
    String → Option Int :=
  upds.foldl (fun acc kv => fun k => if k = kv.1 then some kv.2 else acc k)
    base

/-- `ConversionWorkflow.get_config` (lines 271–277): take the base
configs from `super().get_config()` and `update` them with the default
task configs of the three stage types.  The opaque
`default_task_config()` dictionaries are abstracted as values. -/
def conversionGetConfig (superConfigs : String → Option Int)
    (uniqueDefault downscalingDefault upscalingDefault : Int) :
    String → Option Int :=
  pyUpdate superConfigs
    [("unique_block_labels", uniqueDefault),
     ("downscaling", downscalingDefault),
     ("upscaling", upscalingDefault)]

/-- `BlocksFromMaskWorkflow.get_config` (lines 31–36). -/
def blocksFromMaskGetConfig (superConfigs : String → Option Int)
    (maskDefault : Int) : String → Option Int :=
  pyUpdate superConfigs [("blocks_from_mask", maskDefault)]

/-! ## Per-block compute (`threshold_blocks`, lines 166–239)

For one assigned block: load the mask region; if `np.sum(mask) == 0`
write the result file `{'n_components': 0, 't': ...}` and `continue`
without touching `ds_out`; otherwise run the affinity pipeline and the
external `vigra.analysis.labelVolumeWithBackground` call (abstracted
here as the precomputed label array `labeled`), assign
`ds_out[bb] = affs.astype('uint64')`, and write the result file with
`n_components = int(affs.max()) + 1`. -/

/-- One per-block result record `{'n_components': ..., 't': ...}`. -/
structure ResRecord where
  n_components : Int
  t : Int
deriving DecidableEq

/-- The effects of processing one block: the result file written (if
any) and the content assigned to the block's region of the output
dataset (`none` = the region is left untouched). -/
structure BlockOutcome where
  resFile : Option ResRecord
  outRegion : Option (List Nat)
deriving DecidableEq

/-- The body of the `for block_id in block_ids` loop of
`threshold_blocks` for one block.  `mask` is the flattened mask region
`ds_mask[bb]`; `labeled` abstracts the connected-component array
computed by the external collaborators when the mask is non-empty;
`t` is the measured duration `time.time() - t0`. -/
def thresholdBlock (mask : List Nat) (labeled : List Nat) (t : Int) :
    BlockOutcome :=
  if mask.sum = 0 then
    { resFile := some ⟨0, t⟩, outRegion := none }
  else
    { resFile := some ⟨(labeled.foldr max 0 : Nat) + 1, t⟩,
      outRegion := some labeled }

/-! ## Helper lemmas: the round-robin slice -/

theorem everyNthAux_congr {α : Type} (step : Nat) :
    ∀ (fuel₁ : Nat) (l : List α) (fuel₂ : Nat), l.length ≤ fuel₁ →
      l.length ≤ fuel₂ → everyNthAux fuel₁ l step = everyNthAux fuel₂ l step := by
  intro fuel₁
  induction fuel₁ with
  | zero =>
    intro l fuel₂ h1 _
    have : l = [] := List.length_eq_zero.mp (by omega)
    subst this
    cases fuel₂ <;> rfl
  | succ fuel ih =>
    intro l fuel₂ h1 h2
    cases l with
    | nil => cases fuel₂ <;> rfl
    | cons x xs =>
      cases fuel₂ with
      | zero => simp at h2
      | succ fuel₂ =>
        show x :: everyNthAux fuel (xs.drop (step - 1)) step
          = x :: everyNthAux fuel₂ (xs.drop (step - 1)) step
        congr 1
        exact ih (xs.drop (step - 1)) fuel₂
          (by simp [List.length_drop] at *; omega)
          (by simp [List.length_drop] at *; omega)

theorem everyNth_nil {α : Type} (step : Nat) :
    everyNth ([] : List α) step = [] := rfl

theorem everyNth_cons {α : Type} (x : α) (xs : List α) (step : Nat) :
    everyNth (x :: xs) step = x :: everyNth (xs.drop (step - 1)) step := by
  unfold everyNth
  show x :: everyNthAux xs.length (xs.drop (step - 1)) step = _
  congr 1
  exact everyNthAux_congr step xs.length (xs.drop (step - 1))
    (xs.drop (step - 1)).length (by simp [List.length_drop]) le_rfl

theorem drop_range' : ∀ (m a n : Nat),
    (List.range' a n).drop m = List.range' (a + m) (n - m)
  | 0, _, _ => by simp
  | m + 1, a, 0 => by simp
  | m + 1, a, n + 1 => by
    rw [List.range'_succ, List.drop_succ_cons, drop_range' m (a + 1) n]
    congr 1 <;> omega

theorem everyNth_mem_range' {s : Nat} (hs : 1 ≤ s) :
    ∀ n a b, b ∈ everyNth (List.range' a n) s ↔
      ∃ i, b = a + s * i ∧ b < a + n := by
  intro n
  induction n using Nat.strong_induction_on with
  | _ n ih =>
    intro a b
    match n with
    | 0 =>
      rw [List.range'_zero, everyNth_nil]
      simp only [List.not_mem_nil, false_iff, not_exists, not_and]
      intro i hi
      omega
    | Nat.succ m =>
      rw [List.range'_succ, everyNth_cons, drop_range']
      have h1 : a + 1 + (s - 1) = a + s := by omega
      rw [h1, List.mem_cons, ih (m - (s - 1)) (by omega) (a + s) b]
      constructor
      · rintro (rfl | ⟨i, rfl, hlt⟩)
        · exact ⟨0, by omega, by omega⟩
        · exact ⟨i + 1, by rw [Nat.mul_succ]; omega, by omega⟩
      · rintro ⟨i, rfl, hlt⟩
        cases i with
        | zero => left; omega
        | succ i' =>
          right
          rw [Nat.mul_succ] at hlt ⊢
          exact ⟨i', by omega, by omega⟩

theorem mem_jobBlocks {n_jobs n_blocks j b : Nat} (hj : j < n_jobs)
    (hjn : n_jobs ≤ n_blocks) :
    b ∈ jobBlocks n_jobs n_blocks j ↔ b < n_blocks ∧ b % n_jobs = j := by
  have hs : 1 ≤ n_jobs := by omega
  unfold jobBlocks pySliceStep
  rw [List.range_eq_range', drop_range' j 0 n_blocks,
    everyNth_mem_range' hs]
  simp only [Nat.zero_add]
  constructor
  · rintro ⟨i, rfl, hlt⟩
    refine ⟨by omega, ?_⟩
    rw [Nat.add_mul_mod_self_left]
    exact Nat.mod_eq_of_lt hj
  · rintro ⟨hb, hmod⟩
    refine ⟨b / n_jobs, ?_, ?_⟩
    · have h := Nat.div_add_mod b n_jobs
      rw [hmod] at h
      omega
    · omega

/-! ## Helper lemmas: result collection and aggregation -/

theorem isReadable_not_onlyT (files : Nat → Option FileContent) (b : Nat)
    (h : isReadable files b = true) : isOnlyT files b = false := by
  unfold isReadable at h
  unfold isOnlyT
  rcases hfb : files b with _ | (_ | ⟨(_ | t), (_ | n)⟩) <;> simp [hfb] at h ⊢

theorem collectStep_spec (files : Nat → Option FileContent)
    (st : CollectState) (b : Nat) :
    (collectStep files st b).processed_blocks
        = st.processed_blocks ++ (if isReadable files b then [b] else []) ∧
    (collectStep files st b).deleted
        = st.deleted ++ (if isReadable files b then [b] else []) ∧
    (collectStep files st b).n_components.length
        = st.n_components.length + (if isReadable files b then 1 else 0) ∧
    (collectStep files st b).times.length
        = st.times.length + (if isReadable files b then 1 else 0)
          + (if isOnlyT files b then 1 else 0) := by
  rcases hfb : files b with _ | (_ | ⟨(_ | t), (_ | n)⟩) <;>
    simp [collectStep, isReadable, isOnlyT, hfb]

theorem collect_foldl_spec (files : Nat → Option FileContent) :
    ∀ (ids : List Nat) (st : CollectState),
      ((ids.foldl (collectStep files) st).processed_blocks
          = st.processed_blocks ++ ids.filter (isReadable files)) ∧
      ((ids.foldl (collectStep files) st).deleted
          = st.deleted ++ ids.filter (isReadable files)) ∧
      ((ids.foldl (collectStep files) st).n_components.length
          = st.n_components.length + (ids.filter (isReadable files)).length) ∧
      ((ids.foldl (collectStep files) st).times.length
          = st.times.length + (ids.filter (isReadable files)).length
            + (ids.filter (isOnlyT files)).length) := by
  intro ids
  induction ids with
  | nil => intro st; simp
  | cons b ids ih =>
    intro st
    obtain ⟨h1, h2, h3, h4⟩ := ih (collectStep files st b)
    obtain ⟨s1, s2, s3, s4⟩ := collectStep_spec files st b
    rw [List.foldl_cons]
    refine ⟨?_, ?_, ?_, ?_⟩
    · rw [h1, s1, List.filter_cons]
      cases hb : isReadable files b <;> simp [hb, List.append_assoc]
    · rw [h2, s2, List.filter_cons]
      cases hb : isReadable files b <;> simp [hb, List.append_assoc]
    · rw [h3, s3]
      simp only [List.filter_cons]
      cases hb : isReadable files b <;> simp [hb] <;> omega
    · rw [h4, s4]
      simp only [List.filter_cons]
      cases hb : isReadable files b
      · cases hb2 : isOnlyT files b <;> simp [hb, hb2] <;> omega
      · have hb2 := isReadable_not_onlyT files b hb
        simp [hb, hb2]
        omega

theorem collectOutputs_spec (files : Nat → Option FileContent) (n_blocks : Nat) :
    ((collectOutputs files n_blocks).processed_blocks
        = (List.range n_blocks).filter (isReadable files)) ∧
    ((collectOutputs files n_blocks).deleted
        = (List.range n_blocks).filter (isReadable files)) ∧
    ((collectOutputs files n_blocks).n_components.length
        = ((List.range n_blocks).filter (isReadable files)).length) ∧
    ((collectOutputs files n_blocks).times.length
        = ((List.range n_blocks).filter (isReadable files)).length
          + ((List.range n_blocks).filter (isOnlyT files)).length) := by
  have h := collect_foldl_spec files (List.range n_blocks) ⟨[], [], [], []⟩
  simpa [collectOutputs] using h

theorem all_readable_of_filter_length (files : Nat → Option FileContent)
    {n_blocks : Nat}
    (h : ((List.range n_blocks).filter (isReadable files)).length = n_blocks) :
    ∀ b < n_blocks, isReadable files b = true := by
  have hsub := List.filter_sublist (p := isReadable files)
    (l := List.range n_blocks)
  have heq := hsub.eq_of_length (by simpa using h)
  intro b hb
  have hmem : b ∈ (List.range n_blocks).filter (isReadable files) := by
    rw [heq]
    exact List.mem_range.mpr hb
  exact (List.mem_filter.mp hmem).2

theorem aggregateOutcome_of_no_onlyT (files : Nat → Option FileContent)
    (n_blocks : Nat) (honly : ∀ b < n_blocks, isOnlyT files b = false) :
    aggregateOutcome files n_blocks =
      (if (collectOutputs files n_blocks).processed_blocks.length = n_blocks then
        .completed ⟨(collectOutputs files n_blocks).n_components,
          (collectOutputs files n_blocks).times⟩
      else
        .partialFailure
          ⟨(collectOutputs files n_blocks).n_components,
            (collectOutputs files n_blocks).times,
            (collectOutputs files n_blocks).processed_blocks⟩
          (collectOutputs files n_blocks).processed_blocks.length n_blocks
          "threshold_partial.json") := by
  obtain ⟨h1, h2, h3, h4⟩ := collectOutputs_spec files n_blocks
  have honlyfilter : (List.range n_blocks).filter (isOnlyT files) = [] := by
    rw [List.filter_eq_nil_iff]
    intro b hb
    simp [honly b (List.mem_range.mp hb)]
  unfold aggregateOutcome
  rw [if_pos]
  rw [h1, h3, h4, honlyfilter]
  simp

theorem aggregateOutcome_completed_iff (files : Nat → Option FileContent)
    (n_blocks : Nat) :
    (∃ m, aggregateOutcome files n_blocks = .completed m) ↔
      (collectOutputs files n_blocks).processed_blocks.length = n_blocks := by
  obtain ⟨h1, h2, h3, h4⟩ := collectOutputs_spec files n_blocks
  constructor
  · rintro ⟨m, hm⟩
    simp only [aggregateOutcome] at hm
    split at hm
    · split at hm
      · assumption
      · exact absurd hm (by simp)
    · exact absurd hm (by simp)
  · intro hlen
    have hall : ∀ b < n_blocks, isReadable files b = true :=
      all_readable_of_filter_length files (by rw [← h1]; exact hlen)
    have honly : ∀ b < n_blocks, isOnlyT files b = false := fun b hb =>
      isReadable_not_onlyT files b (hall b hb)
    rw [aggregateOutcome_of_no_onlyT files n_blocks honly, if_pos hlen]
    exact ⟨_, rfl⟩

/-! ## Claim theorems -/

/-- C1: For every `n_blocks ≥ 1` and `max_jobs ≥ 1`, the Task computes
`n_jobs = min(max_jobs, n_blocks)`, and the round-robin job preparation
writes to job `j`'s config exactly the block-ids
`{j, j + n_jobs, j + 2·n_jobs, …}` below `n_blocks` (equivalently, the
`b < n_blocks` with `b % n_jobs = j`), so the `n_jobs` block-id lists
are pairwise disjoint and their union is exactly `[0, n_blocks)`. -/
theorem round_robin_partitions_blocks (n_blocks max_jobs : Nat)
    (h1 : 1 ≤ n_blocks) (h2 : 1 ≤ max_jobs) :
    thresholdNJobs n_blocks max_jobs = min max_jobs n_blocks ∧
    (∀ (config : Int) (fs : Nat → Option (JobConfig Int)) (j : Nat),
      j < thresholdNJobs n_blocks max_jobs →
      prepareJobs config (thresholdNJobs n_blocks max_jobs) n_blocks fs j
        = some ⟨config, jobBlocks (thresholdNJobs n_blocks max_jobs) n_blocks j⟩) ∧
    (∀ j, j < thresholdNJobs n_blocks max_jobs →
      ∀ b, b ∈ jobBlocks (thresholdNJobs n_blocks max_jobs) n_blocks j ↔
        (b < n_blocks ∧ b % (thresholdNJobs n_blocks max_jobs) = j)) ∧
    (∀ j j', j < thresholdNJobs n_blocks max_jobs →
      j' < thresholdNJobs n_blocks max_jobs → j ≠ j' →
      ∀ b, b ∈ jobBlocks (thresholdNJobs n_blocks max_jobs) n_blocks j →
        b ∉ jobBlocks (thresholdNJobs n_blocks max_jobs) n_blocks j') ∧
    (∀ b, b < n_blocks ↔ ∃ j, j < thresholdNJobs n_blocks max_jobs ∧
      b ∈ jobBlocks (thresholdNJobs n_blocks max_jobs) n_blocks j) := by
  have hjn : thresholdNJobs n_blocks max_jobs ≤ n_blocks :=
    Nat.min_le_left _ _
  have hpos : 1 ≤ thresholdNJobs n_blocks max_jobs := le_min h1 h2
  refine ⟨Nat.min_comm _ _, ?_, ?_, ?_, ?_⟩
  · intro config fs j hj
    unfold prepareJobs
    simp [hj]
  · intro j hj b
    exact mem_jobBlocks hj hjn
  · intro j j' hj hj' hne b hb hb'
    have h1 := (mem_jobBlocks hj hjn).mp hb
    have h2 := (mem_jobBlocks hj' hjn).mp hb'
    exact hne (h1.2 ▸ h2.2 ▸ rfl)
  · intro b
    constructor
    · intro hb
      refine ⟨b % thresholdNJobs n_blocks max_jobs, Nat.mod_lt b hpos, ?_⟩
      exact (mem_jobBlocks (Nat.mod_lt b hpos) hjn).mpr ⟨hb, rfl⟩
    · rintro ⟨j, hj, hb⟩
      exact ((mem_jobBlocks hj hjn).mp hb).1

theorem round_robin_partitions_blocks_witness :
    1 ≤ (8:Nat) ∧ 1 ≤ (3:Nat) ∧
      ((5:Nat) ∈ jobBlocks (thresholdNJobs 8 3) 8 2 ↔
        (5 < 8 ∧ 5 % thresholdNJobs 8 3 = 2)) :=
  ⟨by decide, by decide,
    (round_robin_partitions_blocks 8 3 (by decide) (by decide)).2.2.1 2
      (by decide) 5⟩

/-- C2: For every set of result artifacts present at aggregation time,
`_collect_outputs` visits every block-id in `[0, n_blocks)` in order:
the processed list is exactly the readable blocks (a read failure is
skipped, the scan continues), every processed block's file is deleted,
and the Task run writes the completion marker iff the number of
processed blocks equals `n_blocks`. -/
theorem aggregator_scans_all_blocks (files : Nat → Option FileContent)
    (n_blocks : Nat) :
    ((collectOutputs files n_blocks).processed_blocks
        = (List.range n_blocks).filter (isReadable files)) ∧
    ((collectOutputs files n_blocks).deleted
        = (collectOutputs files n_blocks).processed_blocks) ∧
    (∀ b, b ∈ (collectOutputs files n_blocks).processed_blocks ↔
        (b < n_blocks ∧ isReadable files b = true)) ∧
    ((∃ m, aggregateOutcome files n_blocks = .completed m) ↔
        (collectOutputs files n_blocks).processed_blocks.length = n_blocks) := by
  obtain ⟨h1, h2, h3, h4⟩ := collectOutputs_spec files n_blocks
  refine ⟨h1, h2.trans h1.symm, ?_, aggregateOutcome_completed_iff files n_blocks⟩
  intro b
  rw [h1, List.mem_filter, List.mem_range]

/-- C3 counterexample: with `n_blocks = 1` and the single result file
holding `{'t': 1}` but no `'n_components'` key, exactly `k = 0 < 1`
artifacts are readable, yet the Task raises `AssertionError` at
`len(processed_blocks) == len(n_components) == len(times)` instead of
writing the partial log and raising the error carrying `(0, 1, path)`. -/
theorem partial_failure_counterexample :
    (((List.range 1).filter
        (isReadable (fun _ => some (.json (some 1) none)))).length = 0) ∧
    aggregateOutcome (fun _ => some (.json (some 1) none)) 1
      = .assertionError := by
  constructor
  · decide
  · decide

/-- C3 (amended): provided no result file carries `'t'` while missing
`'n_components'` (such a file makes the length assertion fail instead,
with no partial log written), a run with exactly `k < n_blocks` readable
artifacts writes the partial log listing exactly the `k` processed
block-ids with their stats and raises the error carrying `k`,
`n_blocks`, and the partial-log path, with no completion marker; and a
run with `k = n_blocks` writes the completion marker and no partial
log. -/
theorem partial_failure_reporting (files : Nat → Option FileContent)
    (n_blocks : Nat) (honly : ∀ b < n_blocks, isOnlyT files b = false) :
    (((List.range n_blocks).filter (isReadable files)).length < n_blocks →
      aggregateOutcome files n_blocks =
        .partialFailure
          ⟨(collectOutputs files n_blocks).n_components,
           (collectOutputs files n_blocks).times,
           (List.range n_blocks).filter (isReadable files)⟩
          ((List.range n_blocks).filter (isReadable files)).length n_blocks
          "threshold_partial.json") ∧
    (((List.range n_blocks).filter (isReadable files)).length = n_blocks →
      aggregateOutcome files n_blocks =
        .completed ⟨(collectOutputs files n_blocks).n_components,
          (collectOutputs files n_blocks).times⟩) := by
  obtain ⟨h1, h2, h3, h4⟩ := collectOutputs_spec files n_blocks
  have hagg := aggregateOutcome_of_no_onlyT files n_blocks honly
  constructor
  · intro hk
    rw [hagg, if_neg (by rw [h1]; omega), h1]
  · intro hk
    rw [hagg, if_pos (by rw [h1]; exact hk)]

theorem partial_failure_reporting_witness :
    (∀ b < 2, isOnlyT
        (fun b => if b = 0 then some (.json (some 1) (some 2)) else none)
        b = false) ∧
    aggregateOutcome
        (fun b => if b = 0 then some (.json (some 1) (some 2)) else none) 2
      = .partialFailure ⟨[2], [1], [0]⟩ 1 2 "threshold_partial.json" := by
  refine ⟨by decide, ?_⟩
  have h := (partial_failure_reporting
    (fun b => if b = 0 then some (.json (some 1) (some 2)) else none) 2
    (by decide)).1 (by decide)
  rw [h]
  decide

/-- C5: `_prepare_jobs` is deterministic and idempotent: the artifact it
writes for each `job_id < n_jobs` does not depend on the prior file
system state, and running it a second time with identical inputs leaves
every job-config artifact byte-identical (the serialized record is a
pure function of `config`, `n_jobs`, `n_blocks` and `job_id`). -/
theorem prepare_jobs_idempotent (config : Int) (n_jobs n_blocks : Nat) :
    (∀ fs, prepareJobs config n_jobs n_blocks
        (prepareJobs config n_jobs n_blocks fs)
      = prepareJobs config n_jobs n_blocks fs) ∧
    (∀ fs₁ fs₂ j, j < n_jobs →
      prepareJobs config n_jobs n_blocks fs₁ j
        = prepareJobs config n_jobs n_blocks fs₂ j) := by
  constructor
  · intro fs
    funext j
    unfold prepareJobs
    by_cases hj : j < n_jobs <;> simp [hj]
  · intro fs₁ fs₂ j hj
    unfold prepareJobs
    simp [hj]

theorem prepare_jobs_idempotent_witness :
    (0:Nat) < 1 ∧
    prepareJobs (0:Int) 1 3 (fun _ => none) 0
      = prepareJobs (0:Int) 1 3 (fun _ => some ⟨7, [9]⟩) 0 :=
  ⟨by decide, (prepare_jobs_idempotent 0 1 3).2 (fun _ => none)
    (fun _ => some ⟨7, [9]⟩) 0 (by decide)⟩

/-- C4 counterexample: in cluster mode, a `subprocess.call` of the
`bsub` command that returns exit status 127 (scheduler binary cannot be
invoked) still makes `_submit_job` return normally — the failure is not
surfaced at submission time. -/
theorem submission_failure_counterexample :
    submitJob false (fun _ => 127) "script.py args"
        "bsub -J threshold_block_0 script.py args" = .ok ∧
    SubmitOutcome.ok ≠ SubmitOutcome.raised := by
  exact ⟨rfl, by decide⟩

/-- C4 (amended): `_submit_job` discards the return value of
`subprocess.call` and raises nothing, in both dispatch modes and for
every exit status, so a failed submission is not surfaced at submission
time; it manifests only at aggregation, where the blocks of jobs that
never ran are counted unprocessed and the Task fails with the
partial-completion error (`0 / n_blocks` processed when no result file
ever appears). -/
theorem submission_failure_deferred (run_local : Bool)
    (shellCall : String → Int) (command bsub_command : String) :
    submitJob run_local shellCall command bsub_command = .ok ∧
    (∀ n_blocks, 1 ≤ n_blocks →
      aggregateOutcome (fun _ => none) n_blocks
        = .partialFailure ⟨[], [], []⟩ 0 n_blocks "threshold_partial.json") := by
  constructor
  · unfold submitJob
    cases run_local <;> rfl
  · intro n hn
    have honly : ∀ b < n, isOnlyT (fun _ => none) b = false :=
      fun _ _ => rfl
    have hfil : (List.range n).filter (isReadable (fun _ => none)) = [] := by
      rw [List.filter_eq_nil_iff]
      intro b _
      simp [isReadable]
    have hfil2 : (List.range n).filter (isOnlyT (fun _ => none)) = [] := by
      rw [List.filter_eq_nil_iff]
      intro b _
      simp [isOnlyT]
    obtain ⟨h1, h2, h3, h4⟩ := collectOutputs_spec (fun _ => none) n
    have hpb : (collectOutputs (fun _ => none) n).processed_blocks = [] := by
      rw [h1, hfil]
    have hnc : (collectOutputs (fun _ => none) n).n_components = [] :=
      List.length_eq_zero.mp (by rw [h3, hfil]; rfl)
    have hts : (collectOutputs (fun _ => none) n).times = [] :=
      List.length_eq_zero.mp (by rw [h4, hfil, hfil2]; rfl)
    rw [aggregateOutcome_of_no_onlyT (fun _ => none) n honly, hpb, hnc, hts,
      if_neg (by simp; omega)]
    simp

theorem submission_failure_deferred_witness :
    1 ≤ 2 ∧
    aggregateOutcome (fun _ => none) 2
      = .partialFailure ⟨[], [], []⟩ 0 2 "threshold_partial.json" :=
  ⟨by decide,
    (submission_failure_deferred false (fun _ => 0) "a" "b").2 2 (by decide)⟩

/-- C6: evaluation at the failing input. `BlocksFromMaskWorkflow` with
two effective scales: `requires` raises `AttributeError` (it reads the
misspelled `self.effecive_scales`), and its loop body constructs every
per-scale task with the class-default dependency — not the previous
scale's task — whereas `ConversionWorkflow._uniques_in_blocks` does
chain each scale's task on the previous one. -/
theorem blocks_from_mask_chain_broken :
    blocksFromMaskRequires PTask.sentinel [[2, 2, 2], [2, 2, 2]]
      = .error .attributeError ∧
    bfmLoop PTask.sentinel 2 = PTask.maskTask 1 PTask.defaultDep ∧
    PTask.dependencyOf (PTask.maskTask 1 PTask.defaultDep)
      = some PTask.defaultDep ∧
    PTask.defaultDep ≠ PTask.maskTask 0 PTask.defaultDep ∧
    uniquesInBlocks PTask.sentinel 2
      = PTask.uniqueTask 1 (PTask.uniqueTask 0 PTask.sentinel) := by
  refine ⟨rfl, by decide, by decide, by decide, by decide⟩

/-- C7 counterexample: when the base configuration already holds
`'downscaling' ↦ 7` and the downscaling stage claims the same key with
default `2`, the merge returns `2` for that key — the later-registered
stage silently overrode the existing entry; no error surfaced. -/
theorem config_merge_counterexample :
    conversionGetConfig (fun k => if k = "downscaling" then some 7 else none)
        1 2 3 "downscaling" = some 2 ∧
    (some (2:Int)) ≠ some 7 := by
  exact ⟨rfl, by decide⟩

/-- C7 (amended): the `get_config` merge uses Python `dict.update`
semantics: each stage key maps to that stage's `default_task_config`
value, silently overriding any existing entry for the key; every other
key keeps the base configuration's value; no error is ever raised. -/
theorem config_merge_overrides (superConfigs : String → Option Int)
    (u d s m : Int) :
    conversionGetConfig superConfigs u d s "unique_block_labels" = some u ∧
    conversionGetConfig superConfigs u d s "downscaling" = some d ∧
    conversionGetConfig superConfigs u d s "upscaling" = some s ∧
    (∀ k, k ≠ "unique_block_labels" → k ≠ "downscaling" → k ≠ "upscaling" →
      conversionGetConfig superConfigs u d s k = superConfigs k) ∧
    blocksFromMaskGetConfig superConfigs m "blocks_from_mask" = some m ∧
    (∀ k, k ≠ "blocks_from_mask" →
      blocksFromMaskGetConfig superConfigs m k = superConfigs k) := by
  refine ⟨rfl, rfl, rfl, ?_, rfl, ?_⟩
  · intro k hk1 hk2 hk3
    simp [conversionGetConfig, pyUpdate, hk1, hk2, hk3]
  · intro k hk
    simp [blocksFromMaskGetConfig, pyUpdate, hk]

theorem config_merge_overrides_witness :
    ("zzz" : String) ≠ "unique_block_labels" ∧
    ("zzz" : String) ≠ "downscaling" ∧
    ("zzz" : String) ≠ "upscaling" ∧
    conversionGetConfig (fun _ => some 5) 1 2 3 "zzz" = some 5 :=
  ⟨by decide, by decide, by decide,
    (config_merge_overrides (fun _ => some 5) 1 2 3 0).2.2.2.1 "zzz"
      (by decide) (by decide) (by decide)⟩

/-- C8 counterexample: with `n_blocks = 0` in local mode, the run does
not complete trivially: `n_jobs = 0` and
`futures.ProcessPoolExecutor(0)` raises `ValueError`, so no completion
marker is written. -/
theorem zero_blocks_local_counterexample :
    thresholdRun true 4 0 (fun _ => none) = .valueError ∧
    RunOutcome.valueError ≠ RunOutcome.completed ⟨[], []⟩ := by
  exact ⟨rfl, by decide⟩

/-- C8 (amended): with `n_blocks = 0`, `n_jobs = 0` and no job config
is written; in cluster mode zero jobs are dispatched and the Task
completes trivially, writing the completion marker with an empty result
set and raising no error; in local mode, constructing the process pool
with `n_jobs = 0` raises `ValueError`, so the Task fails before
dispatch. -/
theorem zero_blocks_trivial_completion (max_jobs : Nat)
    (files : Nat → Option FileContent) :
    thresholdNJobs 0 max_jobs = 0 ∧
    (∀ (config : Int) (fs : Nat → Option (JobConfig Int)) j,
      prepareJobs config (thresholdNJobs 0 max_jobs) 0 fs j = fs j) ∧
    thresholdRun false max_jobs 0 files = .completed ⟨[], []⟩ ∧
    thresholdRun true max_jobs 0 files = .valueError := by
  have h0 : thresholdNJobs 0 max_jobs = 0 := Nat.zero_min _
  refine ⟨h0, ?_, ?_, ?_⟩
  · intro config fs j
    unfold prepareJobs
    rw [h0]
    simp
  · unfold thresholdRun
    rw [h0]
    simp [aggregateOutcome, collectOutputs]
  · unfold thresholdRun
    rw [h0]
    simp

/-- C9: evaluation at the failing input. With `n_blocks = 1` and the
block-0 result file holding `{'t': 1}` but no `'n_components'`,
`_collect_outputs` appends to `times` and then hits the `KeyError`, so
the three returned lists have lengths `1`, `0`, `0` and the assertion
`len(processed_blocks) == len(n_components) == len(times)` in `run`
fails. -/
theorem collect_outputs_unequal_lengths :
    ((collectOutputs (fun _ => some (.json (some 1) none)) 1).times.length
        = 1) ∧
    ((collectOutputs
        (fun _ => some (.json (some 1) none)) 1).n_components.length = 0) ∧
    ((collectOutputs
        (fun _ => some (.json (some 1) none)) 1).processed_blocks.length
      = 0) ∧
    aggregateOutcome (fun _ => some (.json (some 1) none)) 1
      = .assertionError := by
  refine ⟨by decide, by decide, by decide, by decide⟩

/-- C10: for a block whose mask region is all zeros, `threshold_blocks`
writes the result file `{'n_components': 0, 't': ...}` and leaves the
block's region of the output dataset untouched; the output region is
assigned iff the mask is non-empty; a result file is written in every
case. -/
theorem threshold_block_mask_frame (mask labeled : List Nat) (t : Int) :
    (mask.sum = 0 →
      thresholdBlock mask labeled t
        = { resFile := some ⟨0, t⟩, outRegion := none }) ∧
    ((thresholdBlock mask labeled t).outRegion = none ↔ mask.sum = 0) ∧
    (thresholdBlock mask labeled t).resFile.isSome = true := by
  unfold thresholdBlock
  by_cases h : mask.sum = 0 <;> simp [h]

theorem threshold_block_mask_frame_witness :
    ([0, 0] : List Nat).sum = 0 ∧
    thresholdBlock [0, 0] [1, 2] 3
      = { resFile := some ⟨0, 3⟩, outRegion := none } :=
  ⟨by decide, (threshold_block_mask_frame [0, 0] [1, 2] 3).1 (by decide)⟩

end ClusterTools
